import Mathlib

/-!
Verification of the FitSee analytics dashboard's aggregation and filtering
layer.  The dashboard's non-presentational logic lives in three Remix route
loaders: `_index.tsx` (revenue and shop summary statistics),
`generations.tsx` (date-range resolver, day bucketing, averages, top shops),
`shop.$shopId.tsx` (per-shop revenue), plus a paginated shop list.

Conventions of the embedding:
* Timestamps are modelled as integers (milliseconds since the Unix epoch),
  matching JavaScript `Date#getTime`.  For day bucketing timestamps are
  non-negative naturals, which covers every post-1970 event the dashboard
  ever sees; `toISOString().slice(0, 10)` equality and lexicographic order
  on such timestamps coincide with equality and order of `t / 86400000`.
* Currency amounts are modelled as exact rationals; the numeric literal
  `0.029` denotes exactly 29/1000 in `ℚ`.
* Query parameters that may be absent are modelled as `Option` values
  (`none` covers a missing or empty parameter, both falsy in JavaScript).
* Results of the external relational store's `orderBy` are modelled by
  `List.insertionSort`, and its `groupBy`/`skip`/`take` aggregation is
  modelled from the spec where noted.
-/

namespace FitSee

/-- One day in milliseconds, the constant `24 * 60 * 60 * 1000` used by the
loaders of `_index.tsx` and `generations.tsx` to build relative ranges. -/
def msPerDay : Int := 24 * 60 * 60 * 1000

/-- The shape of the Prisma `where`-condition on `createdAt` produced by the
date-range resolvers: no constraint (`{}`), a lower bound (`{ gte }`), or a
closed interval (`{ gte, lte }`). -/
inductive DateCond where
  | all : DateCond
  | gte (lo : Int) : DateCond
  | between (lo hi : Int) : DateCond
deriving DecidableEq

/-- Whether a timestamp satisfies a date condition, i.e. whether a record
with `createdAt = t` passes the corresponding Prisma `where` filter. -/
def DateCond.holds (c : DateCond) (t : Int) : Bool :=
  match c with
  | DateCond.all => true
  | DateCond.gte lo => decide (lo ≤ t)
  | DateCond.between lo hi => decide (lo ≤ t) && decide (t ≤ hi)

/-- The `switch (dateFilter)` of the `_index.tsx` loader (lines 34–58);
`today` is the local midnight computed from the current time, and the
`7days`/`30days` cases subtract whole days from it.  Any other token,
including `all`, falls to the default empty condition. -/
def dateFilterCondition (dateFilter : String) (today : Int) : DateCond :=
  if dateFilter = "today" then DateCond.gte today
  else if dateFilter = "7days" then DateCond.gte (today - 7 * msPerDay)
  else if dateFilter = "30days" then DateCond.gte (today - 30 * msPerDay)
  else DateCond.all

/-- The date-range resolver of the `generations.tsx` loader (lines 33–54):
when the token is `custom` and both `start` and `end` parameters are
present (truthy), the condition is the closed interval between their parsed
timestamps; otherwise control falls to the same `switch` as in
`_index.tsx`, whose `default` arm (hit by `custom` with a missing bound and
by every unrecognized token) leaves the condition empty. -/
def dateCondition (dateFilter : String) (customStart customEnd : Option Int)
    (today : Int) : DateCond :=
  if h : dateFilter = "custom" ∧ customStart.isSome ∧ customEnd.isSome then
    DateCond.between (customStart.get h.2.1) (customEnd.get h.2.2)
  else
    dateFilterCondition dateFilter today

/-- Per-shop net revenue, the `BillingLog.reduce` of `shop.$shopId.tsx`
(lines 56–59), also the inner reduce of `_index.tsx` (lines 83–86): each
record contributes its price minus a 2.9% transaction fee. -/
def shopRevenue (prices : List ℚ) : ℚ :=
  prices.foldl (fun logSum price => logSum + (price - price * 0.029)) 0

/-- Dashboard-wide net revenue, the outer `shops.reduce` of `_index.tsx`
(lines 80–88): the per-shop reduces summed over all shops. -/
def totalRevenue (shopLogs : List (List ℚ)) : ℚ :=
  shopLogs.foldl (fun acc logs => acc + shopRevenue logs) 0

/-- JavaScript's `x || 1` on a count: `1` exactly when the count is `0`. -/
def orOne (n : Nat) : Nat := if n = 0 then 1 else n

/-- The `avgPerShop` statistic of `generations.tsx` (line 65):
`totalGenerations / (uniqueShops.length || 1)`. -/
def avgPerShop (totalGenerations : ℚ) (uniqueShops : List String) : ℚ :=
  totalGenerations / (orOne uniqueShops.length : ℚ)

/-- One step of the grouping loop in `generations.tsx` (lines 76–81): find
the first entry whose key equals `d` and increment its count in place, or
append a fresh entry with count 1 at the end. -/
def bump {α : Type} [DecidableEq α] (l : List (α × Nat)) (d : α) :
    List (α × Nat) :=
  match l with
  | [] => [(d, 1)]
  | (d0, c0) :: rest =>
      if d0 = d then (d0, c0 + 1) :: rest else (d0, c0) :: bump rest d

/-- UTC calendar day of a post-epoch timestamp, the day denoted by
`createdAt.toISOString().slice(0, 10)` in `generations.tsx` (line 77). -/
def dayOf (t : Nat) : Nat := t / 86400000

/-- The chart series of `generations.tsx` (lines 69–81): the store returns
the matching timestamps ordered by `createdAt` ascending (modelled by
`insertionSort`), and the `forEach` loop folds them into `(day, count)`
buckets in first-occurrence order. -/
def chartData (ts : List Nat) : List (Nat × Nat) :=
  (List.insertionSort (fun a b => a ≤ b) ts).foldl
    (fun acc t => bump acc (dayOf t)) []

/-! ### Helper lemmas about the grouping loop -/

/-- `bump` grows the total count by exactly one. -/
theorem bump_snd_sum {α : Type} [DecidableEq α] (l : List (α × Nat)) (d : α) :
    ((bump l d).map Prod.snd).sum = (l.map Prod.snd).sum + 1 := by
  induction l with
  | nil => simp [bump]
  | cons p rest ih =>
      obtain ⟨d0, c0⟩ := p
      by_cases h : d0 = d
      · simp [bump, h]
        ring
      · simp [bump, h, ih]
        ring

/-- `bump` keeps every count positive. -/
theorem bump_pos {α : Type} [DecidableEq α] (l : List (α × Nat)) (d : α)
    (hl : ∀ p ∈ l, 0 < p.2) : ∀ p ∈ bump l d, 0 < p.2 := by
  induction l with
  | nil => simp [bump]
  | cons q rest ih =>
      obtain ⟨d0, c0⟩ := q
      by_cases h : d0 = d
      · intro p hp
        simp [bump, h] at hp
        rcases hp with hp | hp
        · subst hp; exact Nat.succ_pos _
        · exact hl p (List.mem_cons_of_mem _ hp)
      · intro p hp
        simp only [bump, if_neg h, List.mem_cons] at hp
        rcases hp with hp | hp
        · subst hp; exact hl (d0, c0) (List.mem_cons_self _ _)
        · exact ih (fun q hq => hl q (List.mem_cons_of_mem _ hq)) p hp

/-- The keys after a `bump` are the old keys together with `d`. -/
theorem mem_bump_fst {α : Type} [DecidableEq α] (l : List (α × Nat)) (d e : α) :
    e ∈ (bump l d).map Prod.fst ↔ e ∈ l.map Prod.fst ∨ e = d := by
  induction l with
  | nil => simp [bump]
  | cons q rest ih =>
      obtain ⟨d0, c0⟩ := q
      by_cases h : d0 = d
      · subst h
        simp [bump]
        tauto
      · simp only [bump, if_neg h, List.map_cons, List.mem_cons, ih]
        tauto

/-- If the keys are strictly increasing and all bounded by `d`, they stay
strictly increasing after `bump`. -/
theorem bump_pairwise (l : List (Nat × Nat)) (d : Nat)
    (hs : (l.map Prod.fst).Pairwise (· < ·))
    (hb : ∀ e ∈ l.map Prod.fst, e ≤ d) :
    ((bump l d).map Prod.fst).Pairwise (· < ·) := by
  induction l with
  | nil => simp [bump]
  | cons q rest ih =>
      obtain ⟨d0, c0⟩ := q
      simp only [List.map_cons, List.pairwise_cons] at hs
      obtain ⟨h0, hrest⟩ := hs
      by_cases h : d0 = d
      · subst h
        simp only [bump, if_pos rfl, List.map_cons]
        exact List.pairwise_cons.mpr ⟨h0, hrest⟩
      · simp only [bump, if_neg h, List.map_cons]
        refine List.pairwise_cons.mpr ⟨?_, ih hrest ?_⟩
        · intro e he
          rcases (mem_bump_fst rest d e).mp he with he | he
          · exact h0 e he
          · subst he
            exact lt_of_le_of_ne (hb d0 (by simp)) h
        · intro e he
          exact hb e (List.mem_cons_of_mem _ he)

/-- Folding the grouping step over a list grows the total count by the
length of the list. -/
theorem foldl_bump_sum (ts : List Nat) :
    ∀ acc : List (Nat × Nat),
      ((ts.foldl (fun acc t => bump acc (dayOf t)) acc).map Prod.snd).sum
        = (acc.map Prod.snd).sum + ts.length := by
  induction ts with
  | nil => intro acc; simp
  | cons t rest ih =>
      intro acc
      simp only [List.foldl_cons, ih, bump_snd_sum, List.length_cons]
      ring

/-- Folding the grouping step keeps every count positive. -/
theorem foldl_bump_pos (ts : List Nat) :
    ∀ acc : List (Nat × Nat), (∀ p ∈ acc, 0 < p.2) →
      ∀ p ∈ ts.foldl (fun acc t => bump acc (dayOf t)) acc, 0 < p.2 := by
  induction ts with
  | nil => intro acc h; simpa using h
  | cons t rest ih =>
      intro acc h
      exact ih _ (bump_pos _ _ h)

/-- The bucket keys after the fold are the old keys plus the days of the
processed timestamps. -/
theorem foldl_bump_mem (ts : List Nat) :
    ∀ (acc : List (Nat × Nat)) (e : Nat),
      e ∈ (ts.foldl (fun acc t => bump acc (dayOf t)) acc).map Prod.fst ↔
        e ∈ acc.map Prod.fst ∨ e ∈ ts.map dayOf := by
  induction ts with
  | nil => intro acc e; simp
  | cons t rest ih =>
      intro acc e
      simp only [List.foldl_cons, List.map_cons, List.mem_cons, ih,
        mem_bump_fst]
      tauto

/-- Over a `≤`-sorted timestamp list, the fold keeps the bucket keys
strictly increasing, provided the accumulator keys are strictly increasing
and below every remaining day. -/
theorem foldl_bump_pairwise (ts : List Nat) :
    ∀ acc : List (Nat × Nat),
      ts.Pairwise (· ≤ ·) →
      (acc.map Prod.fst).Pairwise (· < ·) →
      (∀ e ∈ acc.map Prod.fst, ∀ t ∈ ts, e ≤ dayOf t) →
      ((ts.foldl (fun acc t => bump acc (dayOf t)) acc).map
          Prod.fst).Pairwise (· < ·) := by
  induction ts with
  | nil => intro acc _ h _; simpa using h
  | cons t rest ih =>
      intro acc hts hacc hbound
      simp only [List.pairwise_cons] at hts
      obtain ⟨hthead, hrest⟩ := hts
      refine ih _ hrest (bump_pairwise _ _ hacc ?_) ?_
      · intro e he
        exact hbound e he t (List.mem_cons_self _ _)
      · intro e he t2 ht2
        rcases (mem_bump_fst acc (dayOf t) e).mp he with he | he
        · exact hbound e he t2 (List.mem_cons_of_mem _ ht2)
        · subst he
          exact Nat.div_le_div_right (hthead t2 ht2)

/-! ### Top-shops ranking and pagination (external store operations) -/

/-- Comparison by event count descending, the order requested from the
store by `orderBy: { _count: { shopId: "desc" } }`. -/
def byCountDesc (a b : String × Nat) : Prop := b.2 ≤ a.2

instance : DecidableRel byCountDesc :=
  fun a b => inferInstanceAs (Decidable (b.2 ≤ a.2))

instance : IsTotal (String × Nat) byCountDesc :=
  ⟨fun a b => Nat.le_total b.2 a.2⟩

instance : IsTrans (String × Nat) byCountDesc :=
  ⟨fun _ _ _ hab hbc => le_trans hbc hab⟩

/-- Modelled from the spec: the grouped aggregation
`prisma.generation.groupBy` with a count per `shopId`, ordered by count
descending and truncated with `take: 10`, invoked by `generations.tsx`
(lines 84–90), is performed by the data-access collaborator and not
implemented in this repository.  Following §4.4 and §6 of the spec it
counts events per shop key, orders the groups by count descending and
keeps the top 10. -/
def topShops (events : List String) : List (String × Nat) :=
  (List.insertionSort byCountDesc
    (events.foldl (fun acc k => bump acc k) [])).take 10

/-- The page size of the paginated shop list (`part_000`, line 12). -/
def PAGE_SIZE : Nat := 20

/-- Modelled from the spec: the store's skip/take pagination (§6), applied
with the `skip = (page - 1) * PAGE_SIZE` and `take: PAGE_SIZE` arguments
computed by the shop-list loader (`part_000`, lines 14–32). -/
def paginate {α : Type} (records : List α) (page : Nat) : List α :=
  (records.drop ((page - 1) * PAGE_SIZE)).take PAGE_SIZE

/-- The reported page count `Math.ceil(totalShops / PAGE_SIZE)`
(`part_000`, line 40), with the real division and ceiling taken in `ℚ`. -/
def totalPages (totalShops : Nat) : Nat :=
  Nat.ceil ((totalShops : ℚ) / (PAGE_SIZE : ℚ))

/-- The real-valued ceiling in `totalPages` agrees with the rounded-up
integer division. -/
theorem totalPages_eq (n : Nat) :
    totalPages n = (n + PAGE_SIZE - 1) / PAGE_SIZE := by
  have hc : ((PAGE_SIZE : ℕ) : ℚ) = 20 := by norm_num [PAGE_SIZE]
  unfold totalPages
  rw [hc]
  unfold PAGE_SIZE
  apply le_antisymm
  · rw [Nat.ceil_le, div_le_iff₀ (by norm_num : (0:ℚ) < 20)]
    have h : n ≤ 20 * ((n + 20 - 1) / 20) := by omega
    calc (n : ℚ) ≤ ((20 * ((n + 20 - 1) / 20) : ℕ) : ℚ) := by exact_mod_cast h
      _ = (((n + 20 - 1) / 20 : ℕ) : ℚ) * 20 := by push_cast; ring
  · have h := Nat.le_ceil ((n : ℚ) / 20)
    rw [div_le_iff₀ (by norm_num : (0:ℚ) < 20)] at h
    have h2 : (n : ℚ) ≤ 20 * (Nat.ceil ((n : ℚ) / 20) : ℚ) := by linarith
    have h3 : n ≤ 20 * Nat.ceil ((n : ℚ) / 20) := by exact_mod_cast h2
    omega

/-- The revenue fold with an arbitrary initial accumulator. -/
theorem shopRevenue_foldl (prices : List ℚ) : ∀ init : ℚ,
    prices.foldl (fun logSum price => logSum + (price - price * 0.029)) init
      = init + (prices.map (fun price => price * (1 - 0.029))).sum := by
  induction prices with
  | nil => intro init; simp
  | cons p rest ih =>
      intro init
      simp only [List.foldl_cons, List.map_cons, List.sum_cons, ih]
      ring

/-- Per-shop revenue as a closed sum. -/
theorem shopRevenue_eq_sum (prices : List ℚ) :
    shopRevenue prices
      = (prices.map (fun price => price * (1 - 0.029))).sum := by
  simpa [shopRevenue] using shopRevenue_foldl prices 0

/-- The dashboard-wide revenue fold with an arbitrary accumulator. -/
theorem totalRevenue_foldl (shopLogs : List (List ℚ)) : ∀ init : ℚ,
    shopLogs.foldl (fun acc logs => acc + shopRevenue logs) init
      = init
        + (shopLogs.flatten.map (fun price => price * (1 - 0.029))).sum := by
  induction shopLogs with
  | nil => intro init; simp
  | cons logs rest ih =>
      intro init
      rw [List.foldl_cons, ih, shopRevenue_eq_sum]
      simp only [List.flatten_cons, List.map_append, List.sum_append]
      ring

/-! ### Claim theorems -/

/-- C1: for every sequence of billing records, the revenue computation
returns the sum over the records of `price * (1 - 0.029)` (each record's
price less the 2.9% transaction fee), and on the empty sequence it returns
`0`; the dashboard-wide total is the same sum over the concatenation of
every shop's records. -/
theorem c1_revenue_net_of_fee (prices : List ℚ) (shopLogs : List (List ℚ)) :
    shopRevenue prices
        = (prices.map (fun price => price * (1 - 0.029))).sum
      ∧ shopRevenue [] = 0
      ∧ totalRevenue shopLogs
          = (shopLogs.flatten.map (fun price => price * (1 - 0.029))).sum := by
  refine ⟨shopRevenue_eq_sum prices, by simp [shopRevenue], ?_⟩
  simpa [totalRevenue] using totalRevenue_foldl shopLogs 0

/-- C2: for every sequence of timestamps, the day-bucketing computation
produces buckets whose counts sum to the length of the input, and every
bucket's count is at least 1. -/
theorem c2_chartData_counts (ts : List Nat) :
    ((chartData ts).map Prod.snd).sum = ts.length
      ∧ ∀ p ∈ chartData ts, 1 ≤ p.2 := by
  constructor
  · have h := foldl_bump_sum (List.insertionSort (fun a b => a ≤ b) ts) []
    simpa [chartData] using h
  · intro p hp
    exact foldl_bump_pos _ [] (by simp) p hp

/-- C2 witness: on the one-element input `[0]` the counts sum to 1 and the
single bucket `(0, 1)` has a count of at least 1. -/
theorem c2_chartData_counts_witness :
    ((chartData [0]).map Prod.snd).sum = 1
      ∧ 1 ≤ ((0 : Nat), (1 : Nat)).2 :=
  ⟨(c2_chartData_counts [0]).1,
    (c2_chartData_counts [0]).2 (0, 1) (by decide)⟩

/-- C3: for every sequence of timestamps, ordered or unordered, the
day-bucketing computation outputs buckets strictly ascending by date with
no duplicates, with a bucket for a day exactly when that UTC calendar day
occurs in the input. -/
theorem c3_chartData_sorted_distinct (ts : List Nat) :
    ((chartData ts).map Prod.fst).Pairwise (· < ·)
      ∧ ∀ e, e ∈ (chartData ts).map Prod.fst ↔ e ∈ ts.map dayOf := by
  constructor
  · simp only [chartData]
    refine foldl_bump_pairwise _ [] ?_ (by simp) (by simp)
    exact List.sorted_insertionSort _ ts
  · intro e
    simp only [chartData]
    rw [foldl_bump_mem]
    simp [List.mem_map]

/-- C3 witness: on the input `[0]` the day `0` is among the bucket dates. -/
theorem c3_chartData_sorted_distinct_witness :
    (0 : Nat) ∈ (chartData [0]).map Prod.fst :=
  ((c3_chartData_sorted_distinct [0]).2 0).mpr (by decide)

/-- C4: a `custom` filter missing its start or its end, and every
unrecognized filter token, resolve to the very condition that the `all`
filter yields, namely the empty (unconstrained) condition. -/
theorem c4_malformed_filter_fallback (dateFilter : String)
    (s e : Option Int) (today : Int)
    (hne : dateFilter ≠ "today" ∧ dateFilter ≠ "7days" ∧
      dateFilter ≠ "30days" ∧ dateFilter ≠ "custom") :
    dateCondition "custom" none e today = dateCondition "all" none e today
      ∧ dateCondition "custom" s none today
          = dateCondition "all" s none today
      ∧ dateCondition dateFilter s e today = dateCondition "all" s e today
      ∧ dateCondition "all" s e today = DateCond.all := by
  obtain ⟨h1, h2, h3, h4⟩ := hne
  unfold dateCondition dateFilterCondition
  simp [h1, h2, h3, h4]

/-- C4 witness: the unrecognized token `weekly`, and `custom` with only an
end bound, both yield the unconstrained condition of `all`. -/
theorem c4_malformed_filter_fallback_witness :
    (("weekly" : String) ≠ "today" ∧ ("weekly" : String) ≠ "7days" ∧
        ("weekly" : String) ≠ "30days" ∧ ("weekly" : String) ≠ "custom")
      ∧ dateCondition "weekly" (some 3) (some 9) 0
          = dateCondition "all" (some 3) (some 9) 0
      ∧ dateCondition "custom" none (some 9) 0 = DateCond.all := by
  have h : ("weekly" : String) ≠ "today" ∧ ("weekly" : String) ≠ "7days" ∧
      ("weekly" : String) ≠ "30days" ∧ ("weekly" : String) ≠ "custom" :=
    ⟨by decide, by decide, by decide, by decide⟩
  refine ⟨h, (c4_malformed_filter_fallback "weekly" (some 3) (some 9) 0 h).2.2.1, ?_⟩
  have h2 := c4_malformed_filter_fallback "weekly" none (some 9) 0 h
  exact h2.1.trans h2.2.2.2

/-- C5 counterexample: noon of 2024-01-31 (day 19753 since the epoch) is a
timestamp on the end calendar date of the range
`custom, start=2024-01-01, end=2024-01-31`, yet the resolved condition
rejects it — the end calendar date is not inclusive, because the parsed
`lte` bound is the midnight instant of the end date. -/
theorem c5_end_date_not_inclusive :
    dayOf (19753 * 86400000 + 43200000) = 19753
      ∧ (dateCondition "custom" (some (19723 * 86400000))
          (some (19753 * 86400000)) 0).holds
            (19753 * 86400000 + 43200000) = false := by
  constructor
  · decide
  · decide

/-- C5 (amended): the `custom` condition is the predicate
`parse(start) ≤ t ∧ t ≤ parse(end)` where a calendar date parses to its
UTC midnight; with `start = 2024-01-01` (day 19723) and
`end = 2024-01-31` (day 19753), every timestamp on 2024-01-15 (day 19737)
satisfies it and every timestamp on or after 2024-02-01 (day 19754) does
not, but of the end calendar date only its initial midnight instant
satisfies it. -/
theorem c5_custom_range (today t : Int) :
    (∀ s e : Int, (dateCondition "custom" (some s) (some e) today).holds t
        = (decide (s ≤ t) && decide (t ≤ e)))
      ∧ (19737 * 86400000 ≤ t → t < 19738 * 86400000 →
          (dateCondition "custom" (some (19723 * 86400000))
            (some (19753 * 86400000)) today).holds t = true)
      ∧ (19754 * 86400000 ≤ t →
          (dateCondition "custom" (some (19723 * 86400000))
            (some (19753 * 86400000)) today).holds t = false) := by
  have hbet : ∀ s e : Int,
      dateCondition "custom" (some s) (some e) today
        = DateCond.between s e := by
    intro s e
    unfold dateCondition
    rw [dif_pos ⟨rfl, rfl, rfl⟩]
    rfl
  refine ⟨fun s e => by rw [hbet]; rfl, ?_, ?_⟩
  · intro hlo hhi
    rw [hbet]
    simp only [DateCond.holds, Bool.and_eq_true, decide_eq_true_eq]
    omega
  · intro hlo
    rw [hbet]
    simp only [DateCond.holds, Bool.and_eq_false_iff, decide_eq_false_iff_not]
    omega

/-- C5 witness: the midnight timestamp of 2024-01-15 is accepted by the
custom range and the first instant of 2024-02-01 is rejected. -/
theorem c5_custom_range_witness :
    (dateCondition "custom" (some (19723 * 86400000))
        (some (19753 * 86400000)) 0).holds (19737 * 86400000) = true
      ∧ (dateCondition "custom" (some (19723 * 86400000))
          (some (19753 * 86400000)) 0).holds (19754 * 86400000) = false :=
  ⟨(c5_custom_range 0 (19737 * 86400000)).2.1 (by norm_num) (by norm_num),
    (c5_custom_range 0 (19754 * 86400000)).2.2 (by norm_num)⟩

/-- C6: whenever `today` is the midnight preceding the current time `now`,
the `today` filter's range contains `now` and the `7days` filter's range
excludes a timestamp exactly 8 × 24 hours before `now`, in both the
`_index.tsx` and the `generations.tsx` resolvers. -/
theorem c6_today_contains_now (now today : Int)
    (hmid : today ≤ now ∧ now < today + msPerDay) :
    (dateFilterCondition "today" today).holds now = true
      ∧ (dateFilterCondition "7days" today).holds
          (now - 8 * msPerDay) = false
      ∧ (dateCondition "today" none none today).holds now = true
      ∧ (dateCondition "7days" none none today).holds
          (now - 8 * msPerDay) = false := by
  obtain ⟨h1, h2⟩ := hmid
  rw [msPerDay] at h2
  refine ⟨?_, ?_, ?_, ?_⟩ <;>
    simp [dateCondition, dateFilterCondition, DateCond.holds, msPerDay] <;>
    omega

/-- C6 witness: with midnight at 0 and the current time one millisecond
later, `today` contains the current time and `7days` excludes the
timestamp 8 days earlier. -/
theorem c6_today_contains_now_witness :
    ((0 : Int) ≤ 1 ∧ (1 : Int) < 0 + msPerDay)
      ∧ (dateFilterCondition "today" 0).holds 1 = true
      ∧ (dateFilterCondition "7days" 0).holds (1 - 8 * msPerDay) = false := by
  have hmid : (0 : Int) ≤ 1 ∧ (1 : Int) < 0 + msPerDay := by
    constructor
    · decide
    · norm_num [msPerDay]
  have h := c6_today_contains_now 1 0 hmid
  exact ⟨hmid, h.1, h.2.1⟩

/-- C7: for every sequence of shop-identifier events, the top-shops
ranking is ordered by event count descending and truncated to at most 10
entries, and grouping `[A, A, B]` yields the counts `A: 2, B: 1` with `A`
ranked first. -/
theorem c7_topShops_ranking (events : List String) :
    ((topShops events).map Prod.snd).Pairwise (fun a b => b ≤ a)
      ∧ (topShops events).length ≤ 10
      ∧ topShops ["A", "A", "B"] = [("A", 2), ("B", 1)] := by
  refine ⟨?_, ?_, by decide⟩
  · have hs : List.Pairwise byCountDesc
        (List.insertionSort byCountDesc
          (events.foldl (fun acc k => bump acc k) [])) :=
      List.sorted_insertionSort _ _
    have ht := hs.sublist (List.take_sublist 10 _)
    rw [List.pairwise_map]
    exact ht
  · simp only [topShops, List.length_take]
    exact min_le_left _ _

/-- C8: with page size 20, page `p` holds the records left after skipping
`(p - 1) * 20` and taking at most 20; page 2 over 25 records holds exactly
5, and the reported page count is the ceiling of the record count divided
by 20 (equivalently, rounded-up integer division). -/
theorem c8_pagination (α : Type) (l : List α) (p : Nat)
    (h25 : l.length = 25) :
    (paginate l p).length
        = min PAGE_SIZE (l.length - (p - 1) * PAGE_SIZE)
      ∧ (paginate l 2).length = 5
      ∧ totalPages l.length = 2
      ∧ ∀ n : Nat, totalPages n = (n + PAGE_SIZE - 1) / PAGE_SIZE := by
  refine ⟨?_, ?_, ?_, fun n => totalPages_eq n⟩
  · simp [paginate, List.length_take, List.length_drop]
  · simp [paginate, List.length_take, List.length_drop, h25, PAGE_SIZE]
  · rw [h25, totalPages_eq]
    decide
  
/-- C8 witness: over the 25 records `0, …, 24`, page 2 holds exactly 5. -/
theorem c8_pagination_witness :
    (List.range 25).length = 25
      ∧ (paginate (List.range 25) 2).length = 5 :=
  ⟨by simp, (c8_pagination Nat (List.range 25) 1 (by simp)).2.1⟩

/-- C10: the average-per-shop divisor is the number of distinct shops when
that number is positive and 1 when it is zero, so the division is never by
zero, and on an empty shop list the computation returns the total
unchanged. -/
theorem c10_avg_division_guard (totalGenerations : ℚ)
    (uniqueShops : List String) :
    (orOne uniqueShops.length : ℚ) ≠ 0
      ∧ (0 < uniqueShops.length →
          orOne uniqueShops.length = uniqueShops.length)
      ∧ (uniqueShops.length = 0 → orOne uniqueShops.length = 1)
      ∧ avgPerShop totalGenerations [] = totalGenerations := by
  refine ⟨?_, ?_, ?_, ?_⟩
  · have h : orOne uniqueShops.length ≠ 0 := by
      unfold orOne
      split <;> omega
    exact_mod_cast Nat.cast_ne_zero.mpr h
  · intro h
    rw [orOne, if_neg (Nat.pos_iff_ne_zero.mp h)]
  · intro h
    rw [orOne, if_pos h]
  · simp [avgPerShop, orOne]

/-- C10 witness: with 7 total generations and no distinct shops, the
divisor degrades to 1 and the average equals the total. -/
theorem c10_avg_division_guard_witness :
    avgPerShop 7 [] = 7 ∧ orOne (List.length ([] : List String)) = 1 :=
  ⟨(c10_avg_division_guard 7 []).2.2.2,
    (c10_avg_division_guard 7 []).2.2.1 rfl⟩

end FitSee
